import Mathlib

/-!
Verification of the finddeck condition-matching engine, capture loop and
structured extractor.  Definitions are shallow embeddings of the TypeScript
source: condition matchers and the match query come from
`src/app/api/debug-capture/route.ts`, the chunked capture loop from
`src/lib/crawlers/bizinfo-pup.ts`, and the extractor fallback behaviour from
`src/lib/llm/extract-target.ts`.  Strings are modelled as `List Char`
(`String.data`), JS numbers that hold integer year/age values as `Int`,
pixel heights as `Nat`.
-/

namespace FindDeck

/-- ASCII lower-casing of one character, the effect of JS
`String.prototype.toLowerCase` on the ASCII range; all other characters
(Korean syllables, digits, punctuation) are left unchanged, as JS does. -/
def lowerChar (c : Char) : Char :=
  if 'A' ≤ c ∧ c ≤ 'Z' then Char.ofNat (c.toNat + 32) else c

/-- JS `s.toLowerCase()` on the character list of a string. -/
def lowerStr (s : List Char) : List Char := s.map lowerChar

/-- Boolean list-prefix test used to implement substring search. -/
def startsWith : List Char → List Char → Bool
  | [], _ => true
  | _ :: _, [] => false
  | a :: as, b :: bs => a = b && startsWith as bs

/-- JS `hay.includes(needle)`: `needle` occurs contiguously in `hay`. -/
def containsSub (hay needle : List Char) : Bool :=
  startsWith needle hay ||
    match hay with
    | [] => false
    | _ :: t => containsSub t needle

/-- Decimal digit test, JS regex `\d`. -/
def isDigitCh (c : Char) : Bool := '0' ≤ c && c ≤ '9'

/-- Whitespace test, the common members of JS regex `\s`. -/
def isWsCh (c : Char) : Bool := c = ' ' || c = '\t' || c = '\n' || c = '\r'

/-- Numeric value of a digit run, the effect of JS `parseInt` on the
captured group of consecutive digits. -/
def digitsToNat (ds : List Char) : Nat :=
  ds.foldl (fun n c => n * 10 + (c.toNat - '0'.toNat)) 0

/-- The qualifying word captured by the company-age regex
`(\d+)\s*년\s*(미만|이내|이하)`. -/
inductive YearWord where
  | miman  -- 미만, exclusive
  | inae   -- 이내, inclusive
  | iha    -- 이하, inclusive
  deriving DecidableEq, Repr

/-- Attempt of the company-age regex `(\d+)\s*년\s*(미만|이내|이하)` at the
head of the list: a maximal digit run, optional whitespace, the literal
`년`, optional whitespace, then one of the three qualifying words. -/
def yearCondAt (s : List Char) : Option (Nat × YearWord) :=
  let ds := s.takeWhile isDigitCh
  if ds.isEmpty then none
  else
    let rest := (s.dropWhile isDigitCh).dropWhile isWsCh
    match rest with
    | '년' :: rest2 =>
      let rest3 := rest2.dropWhile isWsCh
      if startsWith ['미', '만'] rest3 then some (digitsToNat ds, YearWord.miman)
      else if startsWith ['이', '내'] rest3 then some (digitsToNat ds, YearWord.inae)
      else if startsWith ['이', '하'] rest3 then some (digitsToNat ds, YearWord.iha)
      else none
    | _ => none

/-- Leftmost match of the company-age regex in the whole string, the
behaviour of JS `condition.match(/(\d+)\s*년\s*(미만|이내|이하)/)`. -/
def findYearCond : List Char → Option (Nat × YearWord)
  | [] => none
  | c :: t =>
    match yearCondAt (c :: t) with
    | some r => some r
    | none => findYearCond t

/-- Unrestricted sentinel test shared by `matchCompanyAge` and `matchAge`:
the normalized condition contains 무관, 제한없음 or 제한 없음. -/
def noLimitSentinel (normalized : List Char) : Bool :=
  containsSub normalized ['무', '관'] ||
  containsSub normalized ['제', '한', '없', '음'] ||
  containsSub normalized ['제', '한', ' ', '없', '음']

/-- Embedding of `matchCompanyAge` (route.ts lines 260-287): sentinel
pass, pre-founding (예비) pass at zero years, the `N년 미만/이내/이하`
numeric pattern, and pass-through when no pattern matches. -/
def matchCompanyAge (condition : String) (years : Int) : Bool :=
  let normalized := lowerStr condition.data
  if noLimitSentinel normalized then true
  else if containsSub normalized ['예', '비'] && years == 0 then true
  else
    match findYearCond condition.data with
    | some (limit, w) =>
      if w = YearWord.miman then years < (limit : Int) else years ≤ (limit : Int)
    | none => true

/-- Nationwide/unrestricted sentinel of `matchRegion`: the normalized
condition contains 전국 or 무관. -/
def regionSentinel (condition : String) : Bool :=
  let normalized := lowerStr condition.data
  containsSub normalized ['전', '국'] || containsSub normalized ['무', '관']

/-- Capital-region marker of `matchRegion`: the normalized condition
contains 수도권. -/
def hasCapitalMarker (condition : String) : Bool :=
  containsSub (lowerStr condition.data) ['수', '도', '권']

/-- Embedding of `matchRegion` (route.ts lines 293-308): sentinel pass,
capital-region membership in the fixed three-element list, otherwise
literal containment of the user's region in the raw condition. -/
def matchRegion (condition userRegion : String) : Bool :=
  if regionSentinel condition then true
  else if hasCapitalMarker condition then
    ["서울", "경기", "인천"].contains userRegion
  else containsSub condition.data userRegion.data

/-- The qualifying word captured by the age regex
`만?\s*(\d+)\s*세\s*(이하|미만)`. -/
inductive AgeWord where
  | iha    -- 이하, inclusive
  | miman  -- 미만, exclusive
  deriving DecidableEq, Repr

/-- Attempt of the `만?\s*(\d+)\s*세\s*(이하|미만)` core at the head of the
list (the optional `만?\s*` prefix never changes the captured groups). -/
def ageUnderAt (s : List Char) : Option (Nat × AgeWord) :=
  let ds := s.takeWhile isDigitCh
  if ds.isEmpty then none
  else
    let rest := (s.dropWhile isDigitCh).dropWhile isWsCh
    match rest with
    | '세' :: rest2 =>
      let rest3 := rest2.dropWhile isWsCh
      if startsWith ['이', '하'] rest3 then some (digitsToNat ds, AgeWord.iha)
      else if startsWith ['미', '만'] rest3 then some (digitsToNat ds, AgeWord.miman)
      else none
    | _ => none

/-- Leftmost match of the "at most N" age regex. -/
def findAgeUnder : List Char → Option (Nat × AgeWord)
  | [] => none
  | c :: t =>
    match ageUnderAt (c :: t) with
    | some r => some r
    | none => findAgeUnder t

/-- Attempt of the range regex core `(\d+)\s*세?\s*[~\-]\s*(\d+)\s*세` at
the head of the list.  The optional `세` after the first number is consumed
greedily when present; backtracking to the empty alternative can never
succeed because the following character must then be `~` or `-`. -/
def ageRangeAt (s : List Char) : Option (Nat × Nat) :=
  let ds := s.takeWhile isDigitCh
  if ds.isEmpty then none
  else
    let rest := (s.dropWhile isDigitCh).dropWhile isWsCh
    let rest2 :=
      match rest with
      | '세' :: r => r.dropWhile isWsCh
      | _ => rest
    match rest2 with
    | c :: t =>
      if c = '~' || c = '-' then
        let t2 := t.dropWhile isWsCh
        let ds2 := t2.takeWhile isDigitCh
        if ds2.isEmpty then none
        else
          match (t2.dropWhile isDigitCh).dropWhile isWsCh with
          | '세' :: _ => some (digitsToNat ds, digitsToNat ds2)
          | _ => none
      else none
    | [] => none

/-- Leftmost match of the "between N and M" age regex. -/
def findAgeRange : List Char → Option (Nat × Nat)
  | [] => none
  | c :: t =>
    match ageRangeAt (c :: t) with
    | some r => some r
    | none => findAgeRange t

/-- Attempt of the "at least N" regex core `(\d+)\s*세\s*이상` at the head
of the list. -/
def ageOverAt (s : List Char) : Option Nat :=
  let ds := s.takeWhile isDigitCh
  if ds.isEmpty then none
  else
    let rest := (s.dropWhile isDigitCh).dropWhile isWsCh
    match rest with
    | '세' :: rest2 =>
      if startsWith ['이', '상'] (rest2.dropWhile isWsCh) then some (digitsToNat ds)
      else none
    | _ => none

/-- Leftmost match of the "at least N" age regex. -/
def findAgeOver : List Char → Option Nat
  | [] => none
  | c :: t =>
    match ageOverAt (c :: t) with
    | some r => some r
    | none => findAgeOver t

/-- Embedding of `matchAge` (route.ts lines 314-351): sentinel pass, then
the "at most", "between", "at least" patterns in that order, then
pass-through when no pattern matches. -/
def matchAge (condition : String) (age : Int) : Bool :=
  let normalized := lowerStr condition.data
  if noLimitSentinel normalized then true
  else
    match findAgeUnder condition.data with
    | some (limit, w) =>
      if w = AgeWord.miman then age < (limit : Int) else age ≤ (limit : Int)
    | none =>
      match findAgeRange condition.data with
      | some (mn, mx) => (mn : Int) ≤ age && age ≤ (mx : Int)
      | none =>
        match findAgeOver condition.data with
        | some limit => (limit : Int) ≤ age
        | none => true

/-- Unrestricted sentinel of `matchIndustry`: the normalized condition
contains 전분야, 전업종, 무관 or 일반. -/
def industrySentinel (condition : String) : Bool :=
  let normalized := lowerStr condition.data
  containsSub normalized ['전', '분', '야'] ||
  containsSub normalized ['전', '업', '종'] ||
  containsSub normalized ['무', '관'] ||
  containsSub normalized ['일', '반']

/-- The fixed synonym table `industryKeywords` of `matchIndustry`; a user
industry outside the table maps to its own lower-cased literal. -/
def industryKeywords (userIndustry : String) : List (List Char) :=
  if userIndustry = "SW" then
    [['s', 'w'], ['i', 't'], "소프트웨어".data, "정보통신".data, ['i', 'c', 't'], "디지털".data]
  else if userIndustry = "제조" then ["제조".data, "생산".data, "공장".data]
  else if userIndustry = "바이오" then
    ["바이오".data, "헬스".data, "의료".data, "제약".data, "건강".data]
  else if userIndustry = "콘텐츠" then
    ["콘텐츠".data, "미디어".data, "엔터".data, "방송".data, "영상".data]
  else if userIndustry = "유통" then ["유통".data, "물류".data, "배송".data, "커머스".data]
  else if userIndustry = "관광" then ["관광".data, "여행".data, "숙박".data, "서비스".data]
  else if userIndustry = "에너지" then
    ["에너지".data, "환경".data, "그린".data, "친환경".data, "신재생".data]
  else if userIndustry = "농업" then ["농업".data, "식품".data, "농식품".data, "푸드".data]
  else [lowerStr userIndustry.data]

/-- Embedding of `matchIndustry` (route.ts lines 357-379): sentinel pass,
otherwise the user's industry is expanded to the synonym table and the
normalized condition must contain some synonym. -/
def matchIndustry (condition userIndustry : String) : Bool :=
  if industrySentinel condition then true
  else
    (industryKeywords userIndustry).any
      (fun keyword => containsSub (lowerStr condition.data) keyword)

/-- The fields of a stored `SupportProgram` row that the match query reads
(route.ts `select`), restricted to those the filter and ordering consult:
the nullable deadline and the four nullable condition strings. -/
structure Program where
  applicationEnd : Option Int
  companyAge : Option String
  targetRegion : Option String
  targetAge : Option String
  targetIndustry : Option String
  deriving DecidableEq, Repr

/-- The query-time user profile after the handler's preprocessing:
`companyAgeYears` and `ceoAge` are the computed numbers (null when the
query parameter was omitted), `region` and `industry` the raw query
parameters (null when omitted; JS also treats the empty string as
omitted via truthiness). -/
structure UserProfile where
  companyAgeYears : Option Int
  region : Option String
  ceoAge : Option Int
  industry : Option String
  deriving DecidableEq, Repr

/-- JS truthiness of a nullable string: `null` and `""` are falsy. -/
def strTruthy : Option String → Bool
  | none => false
  | some s => !(s = "")

/-- Company-age dimension of the filter (route.ts lines 212-216): runs
`matchCompanyAge` only when the user supplied a founding year and the
program's `companyAge` is truthy. -/
def checkCompanyAge (u : UserProfile) (p : Program) : Bool :=
  match u.companyAgeYears, p.companyAge with
  | some y, some c => if c = "" then true else matchCompanyAge c y
  | _, _ => true

/-- Region dimension of the filter (route.ts lines 219-223). -/
def checkRegion (u : UserProfile) (p : Program) : Bool :=
  match u.region, p.targetRegion with
  | some r, some c => if r = "" || c = "" then true else matchRegion c r
  | _, _ => true

/-- CEO-age dimension of the filter (route.ts lines 226-230). -/
def checkAge (u : UserProfile) (p : Program) : Bool :=
  match u.ceoAge, p.targetAge with
  | some a, some c => if c = "" then true else matchAge c a
  | _, _ => true

/-- Industry dimension of the filter (route.ts lines 233-237). -/
def checkIndustry (u : UserProfile) (p : Program) : Bool :=
  match u.industry, p.targetIndustry with
  | some i, some c => if i = "" || c = "" then true else matchIndustry c i
  | _, _ => true

/-- The whole `programs.filter` predicate: a program is kept when all four
guarded dimension checks pass. -/
def programMatches (u : UserProfile) (p : Program) : Bool :=
  checkCompanyAge u p && checkRegion u p && checkAge u p && checkIndustry u p

/-- Prisma `where: \x7b applicationEnd: \x7b gte: now \x7d \x7d` on the nullable
`applicationEnd` column: the generated SQL comparison `applicationEnd >=
now` is not satisfied by NULL, so rows with a null deadline are excluded
by the query. -/
def prismaGteEnd (now : Int) (p : Program) : Bool :=
  match p.applicationEnd with
  | some d => now ≤ d
  | none => false

/-- Sort key for `orderBy: \x7b applicationEnd: asc \x7d`; every row reaching
the ordering step has a non-null deadline, so the default for `none` is
never consulted. -/
def endKey (p : Program) : Int :=
  match p.applicationEnd with
  | some d => d
  | none => 0

/-- Stable insertion into a list ordered by ascending deadline. -/
def insertByEnd (p : Program) : List Program → List Program
  | [] => [p]
  | q :: t => if endKey p ≤ endKey q then p :: q :: t else q :: insertByEnd p t

/-- Stable sort by ascending deadline, the effect of the query's
`orderBy: \x7b applicationEnd: asc \x7d`. -/
def sortByEnd : List Program → List Program
  | [] => []
  | p :: t => insertByEnd p (sortByEnd t)

/-- The candidate pool produced by `prisma.supportProgram.findMany`
(route.ts lines 184-207): deadline-filter the table, then order by
ascending deadline. -/
def queryPool (now : Int) (table : List Program) : List Program :=
  sortByEnd (table.filter (prismaGteEnd now))

/-- Full match handler result on a table: the date-filtered, ordered pool
further filtered by the four-dimension profile predicate. -/
def matchHandler (now : Int) (table : List Program) (u : UserProfile) : List Program :=
  (queryPool now table).filter (programMatches u)

/-- Chunk height constant of the bizinfo capture loop
(bizinfo-pup.ts line 85). -/
def CHUNK_HEIGHT : Nat := 3000

/-- Maximum chunk count of the bizinfo capture loop
(bizinfo-pup.ts line 86). -/
def MAX_CHUNKS : Nat := 6

/-- Height clamp applied before the capture loop (bizinfo-pup.ts line 74):
`Math.min(Math.max(bodyHeight, 2000), 20000)`. -/
def clampHeight (bodyHeight : Nat) : Nat := min (max bodyHeight 2000) 20000

/-- One state of the capture loop (bizinfo-pup.ts lines 89-134):
`capturedHeight` and the number of screenshots taken so far; returns the
final screenshot count.  Loop body: stop when `capturedHeight ≥
finalHeight`; break when the chunk budget is exhausted; compute the next
chunk height as `min CHUNK_HEIGHT remaining`; break when that height is
under 100 px and at least one chunk exists; otherwise capture and
advance. -/
def captureGo (finalHeight capturedHeight count : Nat) : Nat :=
  if capturedHeight < finalHeight then
    if MAX_CHUNKS ≤ count then count
    else
      let height := min CHUNK_HEIGHT (finalHeight - capturedHeight)
      if height < 100 ∧ 0 < count then count
      else captureGo finalHeight (capturedHeight + height) (count + 1)
  else count
  termination_by MAX_CHUNKS - count
  decreasing_by simp only [MAX_CHUNKS] at *; omega

/-- Number of chunks the capture loop produces for a clamped height. -/
def captureChunks (finalHeight : Nat) : Nat := captureGo finalHeight 0 0

/-- Parsed shape of the model's JSON reply before normalization: each of
the five mandatory schema fields plus the three narrative fields may be
absent or empty in the raw object. -/
structure ParsedTarget where
  companyAge : Option String
  targetRegion : Option String
  targetAge : Option String
  targetIndustry : Option String
  supportField : Option String
  aiSummary : Option String
  targetDetail : Option String
  exclusionDetail : Option String
  deriving DecidableEq, Repr

/-- The extractor's result record `ApplicationTarget`
(extract-target.ts lines 117-128). -/
structure ApplicationTarget where
  companyAge : String
  targetRegion : String
  targetAge : String
  targetIndustry : String
  supportField : String
  aiSummary : Option String
  targetDetail : Option String
  exclusionDetail : Option String
  deriving DecidableEq, Repr

/-- JS `value || default` on a possibly-absent string field: absent and
empty are both falsy, anything else is kept. -/
def orDefault (v : Option String) (d : String) : String :=
  match v with
  | some s => if s = "" then d else s
  | none => d

/-- Embedding of `parseLlmResponse` (extract-target.ts lines 259-283).
`JSON.parse` is modelled by the `Option ParsedTarget` argument: `none` is
a parse failure, caught by the `catch` branch, which returns the record
with all five mandatory fields set to the empty string; a successful
parse is normalized field-wise with `||` defaults. -/
def parseLlmResponse : Option ParsedTarget → ApplicationTarget
  | some parsed =>
    { companyAge := orDefault parsed.companyAge "무관"
      targetRegion := orDefault parsed.targetRegion "전국"
      targetAge := orDefault parsed.targetAge "무관"
      targetIndustry := orDefault parsed.targetIndustry "전분야"
      supportField := orDefault parsed.supportField ""
      aiSummary := parsed.aiSummary
      targetDetail := parsed.targetDetail
      exclusionDetail := parsed.exclusionDetail }
  | none =>
    { companyAge := ""
      targetRegion := ""
      targetAge := ""
      targetIndustry := ""
      supportField := ""
      aiSummary := none
      targetDetail := none
      exclusionDetail := none }

/-- Request-options timeout, in milliseconds, passed when constructing
the vision model client (extract-target.ts line 225:
`\x7b timeout: 300000 \x7d`, commented "5 min timeout"). -/
def visionRequestTimeoutMs : Nat := 300000

/-- The ways the awaited model call can throw inside
`extractTargetFromImage`: a client timeout or a network-level error. -/
inductive LlmFailure where
  | timeout
  | networkError
  deriving DecidableEq, Repr

/-- Outcome structure of `extractTargetFromImage`
(extract-target.ts lines 212-257): `null` when the API key is missing;
otherwise the model call either throws (timeout and network errors are
caught by the same `catch`, both yielding `null`) or yields text whose
parse is normalized by `parseLlmResponse`. -/
def extractTargetFromImage (apiKeyConfigured : Bool)
    (callResult : Except LlmFailure (Option ParsedTarget)) : Option ApplicationTarget :=
  if !apiKeyConfigured then none
  else
    match callResult with
    | Except.error _ => none
    | Except.ok parsed => some (parseLlmResponse parsed)

/-- Chunk count of the capture loop from a remaining height once at least
one chunk has been taken and ignoring the chunk budget: the loop stops on
a remainder under 100 px, otherwise takes one chunk of
`min CHUNK_HEIGHT remaining` and continues. -/
def tailChunks (rem : Nat) : Nat :=
  if rem < 100 then 0 else 1 + tailChunks (rem - min CHUNK_HEIGHT rem)
  termination_by rem
  decreasing_by simp only [CHUNK_HEIGHT] at *; omega

/-- The chunk count the capture loop actually produces for a height `H`:
`ceil(H / CHUNK_HEIGHT)` capped at `MAX_CHUNKS`, with one fewer chunk
when the final partial slice is positive and under 100 px. -/
def expectedChunks (H : Nat) : Nat :=
  if H = 0 then 0
  else
    min MAX_CHUNKS
      (if H % CHUNK_HEIGHT ≠ 0 ∧ H % CHUNK_HEIGHT < 100 ∧ CHUNK_HEIGHT < H
       then (H + (CHUNK_HEIGHT - 1)) / CHUNK_HEIGHT - 1
       else (H + (CHUNK_HEIGHT - 1)) / CHUNK_HEIGHT)

/-- Closed form of `tailChunks`: the ceiling of `rem / CHUNK_HEIGHT`,
minus one when the final partial slice is positive but under 100 px. -/
theorem tailChunks_eq (rem : Nat) :
    tailChunks rem =
      if rem % CHUNK_HEIGHT ≠ 0 ∧ rem % CHUNK_HEIGHT < 100
      then rem / CHUNK_HEIGHT
      else (rem + (CHUNK_HEIGHT - 1)) / CHUNK_HEIGHT := by
  induction rem using Nat.strong_induction_on with
  | _ rem ih =>
    rw [tailChunks]
    by_cases h : rem < 100
    · rw [if_pos h]
      simp only [CHUNK_HEIGHT]
      split_ifs <;> omega
    · rw [if_neg h]
      by_cases h2 : rem ≤ CHUNK_HEIGHT
      · have hmin : min CHUNK_HEIGHT rem = rem := by
          simp only [CHUNK_HEIGHT] at *; omega
        rw [hmin, Nat.sub_self, ih 0 (by omega)]
        simp only [CHUNK_HEIGHT] at *
        split_ifs <;> omega
      · have hmin : min CHUNK_HEIGHT rem = CHUNK_HEIGHT := by
          simp only [CHUNK_HEIGHT] at *; omega
        rw [hmin, ih (rem - CHUNK_HEIGHT) (by simp only [CHUNK_HEIGHT]; omega)]
        simp only [CHUNK_HEIGHT] at *
        split_ifs <;> omega

/-- The capture loop from any state with at least one chunk already taken
produces `min` of the remaining budget and the unbudgeted tail count. -/
theorem captureGo_tail (b : Nat) :
    ∀ (count capturedHeight finalHeight : Nat), 1 ≤ count →
      MAX_CHUNKS - count ≤ b →
      captureGo finalHeight capturedHeight count =
        count + min (MAX_CHUNKS - count) (tailChunks (finalHeight - capturedHeight)) := by
  induction b with
  | zero =>
    intro count cap H h1 hb
    rw [captureGo]
    by_cases hlt : cap < H
    · rw [if_pos hlt, if_pos (by simp only [MAX_CHUNKS] at *; omega)]
      simp only [MAX_CHUNKS] at *; omega
    · rw [if_neg hlt]
      simp only [MAX_CHUNKS] at *; omega
  | succ b ihb =>
    intro count cap H h1 hb
    rw [captureGo]
    by_cases hlt : cap < H
    · by_cases hmax : MAX_CHUNKS ≤ count
      · rw [if_pos hlt, if_pos hmax]
        simp only [MAX_CHUNKS] at *; omega
      · rw [if_pos hlt, if_neg hmax]
        simp only []
        by_cases hsmall : min CHUNK_HEIGHT (H - cap) < 100 ∧ 0 < count
        · rw [if_pos hsmall]
          have hrem : H - cap < 100 := by
            have := hsmall.1; simp only [CHUNK_HEIGHT] at this; omega
          have htail : tailChunks (H - cap) = 0 := by
            rw [tailChunks, if_pos hrem]
          rw [htail]
          simp only [Nat.min_zero]
          omega
        · rw [if_neg hsmall]
          rw [ihb (count + 1) (cap + min CHUNK_HEIGHT (H - cap)) H (by omega)
            (by simp only [MAX_CHUNKS] at *; omega)]
          have hrem : ¬ (H - cap) < 100 := by
            intro hc
            exact hsmall ⟨by simp only [CHUNK_HEIGHT]; omega, by omega⟩
          have harg : H - (cap + min CHUNK_HEIGHT (H - cap)) =
              (H - cap) - min CHUNK_HEIGHT (H - cap) := by omega
          conv_rhs => rw [tailChunks, if_neg hrem]
          rw [harg]
          simp only [MAX_CHUNKS] at *
          omega
    · rw [if_neg hlt]
      have h0 : H - cap = 0 := by omega
      have htail : tailChunks (H - cap) = 0 := by
        rw [h0, tailChunks]
        simp
      rw [htail]
      simp only [Nat.min_zero]
      omega


example : matchCompanyAge "7년 미만" 6 = true := by decide
example : matchCompanyAge "7년 미만" 7 = false := by decide
example : matchCompanyAge "7년 이내" 7 = true := by decide
example : matchCompanyAge "무관" 99 = true := by decide
example : matchCompanyAge "예비창업자" 0 = true := by decide
example : matchCompanyAge "예비창업자" 5 = true := by decide
example : matchAge "만 39세 이하" 39 = true := by decide
example : matchAge "만 39세 이하" 40 = false := by decide
example : matchAge "만 19세~39세" 19 = true := by decide
example : matchAge "만 19세~39세" 40 = false := by decide
example : matchAge "만 19세 미만" 19 = false := by decide
example : matchAge "만 40세 이상" 39 = false := by decide
example : matchAge "청년" 30 = true := by decide
example : matchRegion "수도권" "서울" = true := by decide
example : matchRegion "수도권" "부산" = false := by decide
example : matchRegion "전국" "부산" = true := by decide
example : matchRegion "서울, 경기" "경기" = true := by decide
example : matchRegion "미국" "서울" = false := by decide
example : matchIndustry "SW, IT 기업 대상" "SW" = true := by decide
example : matchIndustry "xyz" "제조" = false := by decide
example : matchIndustry "전분야" "무엇" = true := by decide

/-- Membership in a sorted insertion: exactly the inserted program and the
old members. -/
theorem mem_insertByEnd (p q : Program) (l : List Program) :
    q ∈ insertByEnd p l ↔ q = p ∨ q ∈ l := by
  induction l with
  | nil => simp [insertByEnd]
  | cons r t ih =>
    by_cases h : endKey p ≤ endKey r
    · simp only [insertByEnd, if_pos h, List.mem_cons]
    · simp only [insertByEnd, if_neg h, List.mem_cons, ih]
      tauto

/-- Insertion preserves the ascending-deadline ordering. -/
theorem pairwise_insertByEnd (p : Program) (l : List Program)
    (h : l.Pairwise (fun a b => endKey a ≤ endKey b)) :
    (insertByEnd p l).Pairwise (fun a b => endKey a ≤ endKey b) := by
  induction l with
  | nil => simp [insertByEnd]
  | cons r t ih =>
    rw [List.pairwise_cons] at h
    obtain ⟨hr, ht⟩ := h
    by_cases hle : endKey p ≤ endKey r
    · simp only [insertByEnd, if_pos hle]
      rw [List.pairwise_cons]
      refine ⟨?_, List.pairwise_cons.mpr ⟨hr, ht⟩⟩
      intro x hx
      rcases List.mem_cons.mp hx with hxr | hxt
      · subst hxr; exact hle
      · exact le_trans hle (hr x hxt)
    · simp only [insertByEnd, if_neg hle]
      rw [List.pairwise_cons]
      refine ⟨?_, ih ht⟩
      intro x hx
      rcases (mem_insertByEnd p x t).mp hx with hxp | hxt
      · subst hxp; omega
      · exact hr x hxt

/-- Sorting preserves membership. -/
theorem mem_sortByEnd (q : Program) (l : List Program) :
    q ∈ sortByEnd l ↔ q ∈ l := by
  induction l with
  | nil => simp [sortByEnd]
  | cons r t ih =>
    simp only [sortByEnd, mem_insertByEnd, List.mem_cons, ih]

/-- Sorting yields an ascending-deadline list. -/
theorem pairwise_sortByEnd (l : List Program) :
    (sortByEnd l).Pairwise (fun a b => endKey a ≤ endKey b) := by
  induction l with
  | nil => simp [sortByEnd]
  | cons r t ih => exact pairwise_insertByEnd r _ ih

/-- C1, counterexample: an announcement whose `applicationEnd` is null is
NOT included in the match candidate pool — the Prisma `gte` filter on the
nullable column rejects NULL — refuting the claim that a null
`applicationEnd` is always included. -/
theorem C1_counterexample :
    (⟨none, none, none, none, none⟩ : Program) ∉
      queryPool 0 [⟨none, none, none, none, none⟩] := by decide

/-- C1, amended: the candidate pool keeps exactly the announcements with
a non-null `applicationEnd` at or after `now` — strictly-past deadlines
AND null deadlines are both excluded — and orders the survivors by
ascending `applicationEnd`. -/
theorem C1_queryPool_spec (now : Int) (table : List Program) :
    (∀ p ∈ queryPool now table, ∃ d, p.applicationEnd = some d ∧ now ≤ d) ∧
    (∀ p ∈ table, ∀ d : Int, p.applicationEnd = some d → now ≤ d →
      p ∈ queryPool now table) ∧
    (queryPool now table).Pairwise (fun a b => endKey a ≤ endKey b) := by
  refine ⟨?_, ?_, pairwise_sortByEnd _⟩
  · intro p hp
    rw [queryPool, mem_sortByEnd, List.mem_filter] at hp
    have hgte := hp.2
    unfold prismaGteEnd at hgte
    cases hEnd : p.applicationEnd with
    | none => rw [hEnd] at hgte; simp at hgte
    | some d =>
      rw [hEnd] at hgte
      simp only [decide_eq_true_eq] at hgte
      exact ⟨d, rfl, hgte⟩
  · intro p hp d hd hnow
    rw [queryPool, mem_sortByEnd, List.mem_filter]
    refine ⟨hp, ?_⟩
    unfold prismaGteEnd
    rw [hd]
    simp [hnow]

/-- C1, witness: a program with deadline 5 survives the pool at time 0. -/
theorem C1_witness :
    (⟨some 5, none, none, none, none⟩ : Program) ∈
      queryPool 0 [⟨some 5, none, none, none, none⟩] :=
  (C1_queryPool_spec 0 _).2.1 _ (by decide) 5 rfl (by decide)

/-- C2, counterexample: on a JSON parse failure the parser's result holds
empty strings, not the documented unrestricted sentinels — its region
field is `""`, not `"전국"`, and its company-age field is not `"무관"`. -/
theorem C2_counterexample :
    (parseLlmResponse none).targetRegion = "" ∧
    (parseLlmResponse none).targetRegion ≠ "전국" ∧
    (parseLlmResponse none).companyAge ≠ "무관" := by decide

/-- C2, amended: for every model reply on which JSON parsing fails, the
result parser returns the record with all five mandatory fields set to
the empty string (the catch-branch fallback), and never raises: it is a
total function into `ApplicationTarget`. -/
theorem C2_parse_failure_fallback :
    parseLlmResponse none =
      { companyAge := "", targetRegion := "", targetAge := "",
        targetIndustry := "", supportField := "",
        aiSummary := none, targetDetail := none, exclusionDetail := none } := rfl

/-- C3, counterexample: `matchRegion` and `matchIndustry` can reject a
condition string that matches none of their recognized sentinel or
pattern forms, so not all four rules have a pass-through default. -/
theorem C3_counterexample :
    regionSentinel "미국" = false ∧ hasCapitalMarker "미국" = false ∧
    matchRegion "미국" "서울" = false ∧
    industrySentinel "xyz" = false ∧ matchIndustry "xyz" "제조" = false := by decide

/-- C3, amended: only `matchCompanyAge` and `matchAge` have the
conservative pass-through default (true on every condition on which their
numeric patterns all fail, for every user value); `matchRegion` and
`matchIndustry` instead fall back to literal/synonym containment, which
can reject. -/
theorem C3_passthrough :
    (∀ (cond : String) (years : Int), findYearCond cond.data = none →
      matchCompanyAge cond years = true) ∧
    (∀ (cond : String) (age : Int), findAgeUnder cond.data = none →
      findAgeRange cond.data = none → findAgeOver cond.data = none →
      matchAge cond age = true) ∧
    matchRegion "미국" "부산" = false ∧
    matchIndustry "xyz" "유통" = false := by
  refine ⟨?_, ?_, by decide, by decide⟩
  · intro cond years h
    simp only [matchCompanyAge, h]
    split_ifs <;> rfl
  · intro cond age h1 h2 h3
    simp only [matchAge, h1, h2, h3]
    split_ifs <;> rfl

/-- C3, witness: pass-through on concrete unparseable conditions. -/
theorem C3_witness :
    matchCompanyAge "성장기 기업" 10 = true ∧ matchAge "청년 창업자" 45 = true :=
  ⟨C3_passthrough.1 "성장기 기업" 10 (by decide),
   C3_passthrough.2.1 "청년 창업자" 45 (by decide) (by decide) (by decide)⟩

/-- C4, counterexample: at the legitimate clamped height 3050 the loop
produces 1 chunk although `ceil(3050 / CHUNK_HEIGHT) = 2 ≤ MAX_CHUNKS`:
the trailing 50-px sliver is dropped by the under-100-px guard. -/
theorem C4_counterexample :
    clampHeight 3050 = 3050 ∧ captureChunks 3050 = 1 ∧
    (3050 + (CHUNK_HEIGHT - 1)) / CHUNK_HEIGHT = 2 ∧ 2 ≤ MAX_CHUNKS := by
  refine ⟨by decide, ?_, by decide, by decide⟩
  simp [captureChunks, captureGo, CHUNK_HEIGHT, MAX_CHUNKS]

/-- C4, amended: for every height `H` the capture loop produces
`min MAX_CHUNKS (ceil (H / CHUNK_HEIGHT))` chunks, except that a final
partial slice that is positive and under 100 px (with at least one chunk
before it) is dropped, giving one fewer; the loop is a total function and
stops without error in all cases. -/
theorem C4_captureChunks_eq (H : Nat) : captureChunks H = expectedChunks H := by
  unfold captureChunks
  by_cases h0 : H = 0
  · subst h0
    rw [captureGo]
    simp [expectedChunks]
  · rw [captureGo, if_pos (by omega : (0:Nat) < H),
      if_neg (by simp only [MAX_CHUNKS]; omega)]
    simp only [Nat.sub_zero, Nat.zero_add, lt_self_iff_false, and_false, if_false]
    rw [captureGo_tail MAX_CHUNKS 1 (min CHUNK_HEIGHT H) H (by omega)
      (by omega)]
    rw [tailChunks_eq]
    unfold expectedChunks
    rw [if_neg h0]
    simp only [CHUNK_HEIGHT, MAX_CHUNKS]
    split_ifs <;> omega

/-- C4, witness: at the maximal clamped height the loop hits the budget
and produces exactly `MAX_CHUNKS` chunks. -/
theorem C4_witness : captureChunks 20000 = expectedChunks 20000 :=
  C4_captureChunks_eq 20000

/-- C5, counterexample: the vision-mode model call's configured timeout
is 300000 ms (five minutes), not approximately 90 seconds — it exceeds
90 s more than threefold. -/
theorem C5_counterexample :
    visionRequestTimeoutMs = 300000 ∧ visionRequestTimeoutMs ≠ 90000 ∧
    90000 * 3 < visionRequestTimeoutMs := by decide

/-- C5, amended: vision-mode extraction configures a 300000 ms timeout
through the model client's request options (not a ~90 s race with a
timer), and every thrown failure — client timeout or network error — is
caught by the same handler and reported to the caller as `null`, one
undistinguished failure class. -/
theorem C5_failure_class :
    visionRequestTimeoutMs = 300000 ∧
    (∀ f : LlmFailure, extractTargetFromImage true (Except.error f) = none) :=
  ⟨rfl, fun _ => rfl⟩

/-- C5, witness: timeout and network error produce the identical `null`
outcome. -/
theorem C5_witness :
    extractTargetFromImage true (Except.error LlmFailure.timeout) = none ∧
    extractTargetFromImage true (Except.error LlmFailure.networkError) = none :=
  ⟨C5_failure_class.2 LlmFailure.timeout, C5_failure_class.2 LlmFailure.networkError⟩

/-- C6: `matchCompanyAge` passes every numeric input when the condition
contains an unrestricted sentinel, and on the spec's vectors the
exclusive bound 미만 rejects the boundary while the inclusive bound 이내
admits it. -/
theorem C6_companyAge :
    (∀ (cond : String) (years : Int),
      noLimitSentinel (lowerStr cond.data) = true →
      matchCompanyAge cond years = true) ∧
    matchCompanyAge "7년 미만" 6 = true ∧
    matchCompanyAge "7년 미만" 7 = false ∧
    matchCompanyAge "7년 이내" 7 = true := by
  refine ⟨?_, by decide, by decide, by decide⟩
  intro cond years h
  simp [matchCompanyAge, h]

/-- C6, witness: the sentinel branch at a concrete condition and input. -/
theorem C6_witness : matchCompanyAge "업력 무관" 100 = true :=
  C6_companyAge.1 "업력 무관" 100 (by decide)

/-- C7: `matchAge` is inclusive at the 이하 boundary and false above it,
and a range condition is inclusive at its lower end and false above its
upper end. -/
theorem C7_age_vectors :
    matchAge "만 39세 이하" 39 = true ∧ matchAge "만 39세 이하" 40 = false ∧
    matchAge "만 19세~39세" 19 = true ∧ matchAge "만 19세~39세" 40 = false := by
  decide

/-- C8: `matchRegion` passes unconditionally on the nationwide sentinel;
under the capital-region marker it passes exactly the three regions 서울,
경기, 인천; otherwise it passes exactly when the condition literally
contains the user's region. -/
theorem C8_region :
    (∀ cond r : String, regionSentinel cond = true → matchRegion cond r = true) ∧
    (∀ cond r : String, regionSentinel cond = false → hasCapitalMarker cond = true →
      (matchRegion cond r = true ↔ (r = "서울" ∨ r = "경기" ∨ r = "인천"))) ∧
    (∀ cond r : String, regionSentinel cond = false → hasCapitalMarker cond = false →
      (matchRegion cond r = true ↔ containsSub cond.data r.data = true)) ∧
    matchRegion "수도권" "서울" = true ∧ matchRegion "수도권" "부산" = false := by
  refine ⟨?_, ?_, ?_, by decide, by decide⟩
  · intro cond r h
    simp [matchRegion, h]
  · intro cond r h1 h2
    simp [matchRegion, h1, h2]
  · intro cond r h1 h2
    simp [matchRegion, h1, h2]

/-- C8, witness: the three branches at concrete inputs. -/
theorem C8_witness :
    matchRegion "전국 어디나" "부산" = true ∧
    (matchRegion "수도권 소재" "인천" = true ↔
      ("인천" = "서울" ∨ "인천" = "경기" ∨ "인천" = "인천")) :=
  ⟨C8_region.1 "전국 어디나" "부산" (by decide),
   C8_region.2.1 "수도권 소재" "인천" (by decide) (by decide)⟩

/-- C9: a condition containing the pre-founding marker 예비 but no
`N년 미만/이내/이하` numeric pattern makes `matchCompanyAge` return true
for every company age, positive ages included: the dedicated 예비 branch
fires only at zero years and all other ages reach the pass-through
default. -/
theorem C9_preFounding (cond : String) (years : Int)
    (hpre : containsSub (lowerStr cond.data) ['예', '비'] = true)
    (hnum : findYearCond cond.data = none) :
    matchCompanyAge cond years = true := by
  simp only [matchCompanyAge, hnum]
  split_ifs <;> rfl

/-- C9, witness: 예비창업자 admits a seven-year-old company. -/
theorem C9_witness : matchCompanyAge "예비창업자" 7 = true :=
  C9_preFounding "예비창업자" 7 (by decide) (by decide)

/-- C10: each of the four filter dimensions is skipped — passes for every
user profile — when the user omitted the profile field or when the stored
condition field is null or the empty string. -/
theorem C10_skip (u : UserProfile) (p : Program) :
    ((u.companyAgeYears = none ∨ p.companyAge = none ∨ p.companyAge = some "") →
      checkCompanyAge u p = true) ∧
    ((u.region = none ∨ u.region = some "" ∨ p.targetRegion = none ∨
        p.targetRegion = some "") → checkRegion u p = true) ∧
    ((u.ceoAge = none ∨ p.targetAge = none ∨ p.targetAge = some "") →
      checkAge u p = true) ∧
    ((u.industry = none ∨ u.industry = some "" ∨ p.targetIndustry = none ∨
        p.targetIndustry = some "") → checkIndustry u p = true) := by
  refine ⟨?_, ?_, ?_, ?_⟩
  · intro h
    unfold checkCompanyAge
    rcases h with h | h | h
    · rw [h]
    · rw [h]; cases u.companyAgeYears <;> rfl
    · rw [h]; cases u.companyAgeYears <;> simp
  · intro h
    unfold checkRegion
    rcases h with h | h | h | h
    · rw [h]
    · rw [h]; cases p.targetRegion <;> simp
    · rw [h]; cases u.region <;> rfl
    · rw [h]; cases u.region <;> simp
  · intro h
    unfold checkAge
    rcases h with h | h | h
    · rw [h]
    · rw [h]; cases u.ceoAge <;> rfl
    · rw [h]; cases u.ceoAge <;> simp
  · intro h
    unfold checkIndustry
    rcases h with h | h | h | h
    · rw [h]
    · rw [h]; cases p.targetIndustry <;> simp
    · rw [h]; cases u.industry <;> rfl
    · rw [h]; cases u.industry <;> simp

/-- C10, witness: a program with a null company-age condition passes the
company-age dimension for a user who supplied a founding year. -/
theorem C10_witness :
    checkCompanyAge ⟨some 3, none, none, none⟩ ⟨some 0, none, none, none, none⟩ = true :=
  (C10_skip ⟨some 3, none, none, none⟩ ⟨some 0, none, none, none, none⟩).1
    (Or.inr (Or.inl rfl))

end FindDeck
